import Mathlib

/-!
Shallow embedding of the conversion pipeline of the
Image-file-type-Converter-App repository (src/image_converter.py,
src/utils.py, src/main_nodnd.py), together with theorems settling the
frozen claims about its natural-language specification.

Machine reals of the Python source (float division followed by int
truncation) are embedded as exact rational arithmetic followed by floor,
which over the positive integers of the pipeline is integer division.
-/

namespace ImageConv

/-- ImageConverter.SUPPORTED_INPUT_FORMATS (src/image_converter.py, lines 17-20). -/
def SUPPORTED_INPUT_FORMATS : List String :=
  [".jpg", ".jpeg", ".png", ".gif", ".bmp", ".tiff", ".tif",
   ".webp", ".avif", ".ico", ".ppm", ".pgm", ".pbm"]

/-- ImageConverter.SUPPORTED_OUTPUT_FORMATS (lines 23-32): the capability
table mapping a lower-cased output format key to its PIL encoder name. -/
def SUPPORTED_OUTPUT_FORMATS : List (String × String) :=
  [("png", "PNG"), ("jpg", "JPEG"), ("jpeg", "JPEG"), ("webp", "WEBP"),
   ("tiff", "TIFF"), ("bmp", "BMP"), ("gif", "GIF"), ("ico", "ICO")]

/-- Membership test of the output capability table (the Python test
output_format not in SUPPORTED_OUTPUT_FORMATS, line 72). -/
def supportedOutput (fmt : String) : Bool :=
  (SUPPORTED_OUTPUT_FORMATS.map Prod.fst).contains fmt

/-- Table lookup SUPPORTED_OUTPUT_FORMATS[output_format] (line 180). -/
def pilFormat (fmt : String) : String :=
  (((SUPPORTED_OUTPUT_FORMATS.filter (fun q => q.1 == fmt)).head?).map Prod.snd).getD ""

/-- Python str.lower, written by structural recursion over the character
list so that proofs can evaluate it (the format names and suffixes of
this program are ASCII). -/
def lowerStr (s : String) : String := String.mk (s.data.map Char.toLower)

/-- The output formats treated as transparency capable by
ImageConverter._handle_transparency (line 133). -/
def transparentFormats : List String := ["png", "gif", "webp", "ico"]

/-- A pixel with red, green, blue and alpha channels (0..255). -/
structure Pixel where
  r : Nat
  g : Nat
  b : Nat
  a : Nat
deriving DecidableEq, Repr

/-- The PIL pixel modes the pipeline dispatches on. -/
inductive Mode
  | RGB
  | RGBA
  | LA
  | L
  | P
deriving DecidableEq, Repr

/-- Shallow model of a decoded PIL image: pixel mode, dimensions, whether
the info dictionary contains a transparency entry, whether the EXIF data
requests a dimension-swapping transpose, and the pixel contents (already
palette-resolved for mode P). -/
structure PILImage where
  mode : Mode
  width : Nat
  height : Nat
  transparencyInfo : Bool
  exifSwap : Bool
  px : Nat → Nat → Pixel

/-- Image.new with mode RGB and a white fill (lines 138 and 147). -/
def newRGBWhite (w h : Nat) : PILImage :=
  { mode := Mode.RGB, width := w, height := h, transparencyInfo := false,
    exifSwap := false, px := fun _ _ => ⟨255, 255, 255, 255⟩ }

/-- One channel of background.paste(img, mask=alpha): the source channel c
blended over the background channel d with 8-bit alpha a. -/
def blendChannel (c d a : Nat) : Nat := (c * a + d * (255 - a)) / 255

/-- background.paste(img, mask=img.split()[-1]) (lines 140, 142, 148): the
source is blended over the background using the source alpha band as the
mask; the pasted-into image keeps its own mode and dimensions. -/
def pasteWithAlphaMask (bg src : PILImage) : PILImage :=
  { bg with px := fun x y =>
      let s := src.px x y
      let d := bg.px x y
      ⟨blendChannel s.r d.r s.a, blendChannel s.g d.g s.a,
       blendChannel s.b d.b s.a, 255⟩ }

/-- img.convert to RGBA for a palette image (line 146); the pixels are
modelled already palette-resolved, so only the mode changes. -/
def convertToRGBA (img : PILImage) : PILImage := { img with mode := Mode.RGBA }

/-- ImageConverter._handle_transparency (lines 130-151). The RGBA and LA
branches of the source have the identical body (lines 139-142), so they
are taken together here. -/
def handleTransparency (img : PILImage) (output_format : String) : PILImage :=
  if !(transparentFormats.contains (lowerStr output_format)) then
    if img.mode = Mode.RGBA ∨ img.mode = Mode.LA then
      pasteWithAlphaMask (newRGBWhite img.width img.height) img
    else if img.mode = Mode.P ∧ img.transparencyInfo then
      pasteWithAlphaMask (newRGBWhite img.width img.height) (convertToRGBA img)
    else img
  else img

/-- The dimension computation of ImageConverter._resize_image
(lines 153-174). The float comparison original_ratio > target_ratio is
the cross-multiplied integer comparison, and int() applied to the
positive float quotients is integer division. -/
def resizeDims (ow oh tw th : Nat) : Nat × Nat :=
  if tw * oh < ow * th then (tw, tw * oh / ow) else (th * ow / oh, th)

/-- ImageConverter._resize_image: the image is resampled to the computed
dimensions (the LANCZOS resampling of the pixel contents is not
modelled; no claim concerns the resampled pixel values). -/
def resizeImage (img : PILImage) (dims : Nat × Nat) : PILImage :=
  let nd := resizeDims img.width img.height dims.1 dims.2
  { img with width := nd.1, height := nd.2 }

/-- ImageOps.exif_transpose (line 89), modelled at the level the claims
need: when the EXIF data requests a 90-degree family transpose the
dimensions swap, and the orientation tag is consumed. -/
def exifTranspose (img : PILImage) : PILImage :=
  if img.exifSwap then
    { img with width := img.height, height := img.width, exifSwap := false }
  else img

/-- The in-memory part of ImageConverter._save_image (lines 183-186): for
the JPEG encoder the image is converted to RGB before saving; other
encoders receive the buffer as is. -/
def encodeImage (img : PILImage) (output_format : String) : PILImage :=
  if pilFormat output_format = "JPEG" ∧ img.mode ≠ Mode.RGB then
    { img with mode := Mode.RGB }
  else img

/-- The processing stages of ImageConverter.convert_image. -/
inductive Step
  | transparency
  | resize
  | orientation
  | encode
deriving DecidableEq, Repr

/-- Apply one pipeline stage to the image and record it in the trace. -/
def applyStep (st : Step) (f : PILImage → PILImage) :
    PILImage × List Step → PILImage × List Step :=
  fun q => (f q.1, q.2 ++ [st])

/-- The image-processing stage of ImageConverter.convert_image
(lines 80-92), with the order in which the stages run recorded as a
trace: transparency handling (line 82), then the optional resize
(lines 85-86), then EXIF orientation correction (line 89), then the
encoder-side conversion of _save_image (line 92). -/
def processImage (output_format : String) (resize : Bool)
    (resize_dimensions : Option (Nat × Nat)) (img : PILImage) :
    PILImage × List Step :=
  let s1 := applyStep Step.transparency
    (fun i => handleTransparency i output_format) (img, [])
  let s2 := if resize && resize_dimensions.isSome then
      applyStep Step.resize (fun i => resizeImage i (resize_dimensions.getD (0, 0))) s1
    else s1
  let s3 := applyStep Step.orientation exifTranspose s2
  applyStep Step.encode (fun i => encodeImage i output_format) s3

/-- Python truthiness of an optional string: None and the empty string
are falsy. -/
def pyTruthy : Option String → Bool
  | none => false
  | some s => s != ""

/-- The output directory choice of ImageConverter._get_output_path
(lines 107-110): the output folder when truthy, else the parent of the
input path. -/
def outputDir (parent : String) (output_folder : Option String) : String :=
  if pyTruthy output_folder then output_folder.getD "" else parent

/-- The k-th candidate output path tried by ImageConverter._get_output_path:
candidate 0 is dir/stem.ext (line 119), candidate k for k at least 1 is
dir/stem_k.ext (line 125). -/
def candName (dir stem ext : String) : Nat → String
  | 0 => dir ++ "/" ++ stem ++ ext
  | Nat.succ k => dir ++ "/" ++ stem ++ "_" ++ toString (k + 1) ++ ext

/-- The while loop of _get_output_path (lines 122-127): starting from
candidate k, return the first candidate not present on the filesystem.
The fuel argument bounds the search; the concrete loop terminates
because a real filesystem holds finitely many paths. -/
def resolveLoop (fsE : String → Bool) (dir stem ext : String) :
    Nat → Nat → String
  | 0, k => candName dir stem ext k
  | Nat.succ fuel, k =>
    if fsE (candName dir stem ext k) then resolveLoop fsE dir stem ext fuel (k + 1)
    else candName dir stem ext k

/-- ImageConverter._get_output_path (lines 104-128): choose the output
directory, then resolve name collisions; the mkdir side effect of
line 113 is recorded in the effect log of convertImage. -/
def getOutputPath (fsE : String → Bool) (parent : String)
    (output_folder : Option String) (stem output_format : String)
    (fuel : Nat) : String :=
  resolveLoop fsE (outputDir parent output_folder) stem ("." ++ output_format) fuel 0

/-- The settings dictionary handed to convert_image; a missing key is
modelled as none. -/
structure Settings where
  output_format : Option String
  output_folder : Option String
  resize : Bool
  resize_dimensions : Option (Nat × Nat)
  quality : Option Nat

/-- The pieces of the input path that pathlib exposes and convert_image
reads: the full path string and its parent, stem and suffix parts. -/
structure InputPath where
  full : String
  parent : String
  stem : String
  suffix : String

/-- The environment one conversion call runs against: which paths exist
on the filesystem at call time, what Image.open decodes a path to (none
models a decode exception), and whether the final save to a given path
succeeds. -/
structure Env where
  fsExists : String → Bool
  decode : String → Option PILImage
  saveOk : String → Bool

/-- Filesystem effects performed by one conversion call: the directories
the call ensures exist (the mkdir of line 113) and the files written
(the save of line 201). -/
structure FSLog where
  mkdirCalls : List String
  filesWritten : List String
deriving DecidableEq, Repr

/-- The empty effect log: the call touched nothing. -/
def FSLog.empty : FSLog := { mkdirCalls := [], filesWritten := [] }

/-- ImageConverter.convert_image (lines 37-102): input validation, output
format validation, output path computation with its mkdir side effect,
decode, the processing pipeline, and the save, returning the bool the
Python method returns together with the filesystem effect log. -/
def convertImage (env : Env) (fuel : Nat) (p : InputPath) (s : Settings) :
    Bool × FSLog :=
  if !(env.fsExists p.full) then (false, FSLog.empty)
  else if !(SUPPORTED_INPUT_FORMATS.contains (lowerStr p.suffix)) then (false, FSLog.empty)
  else
    let fmt := lowerStr (s.output_format.getD "png")
    if !(supportedOutput fmt) then (false, FSLog.empty)
    else
      let dir := outputDir p.parent s.output_folder
      let outPath := getOutputPath env.fsExists p.parent s.output_folder p.stem fmt fuel
      let log1 : FSLog := { mkdirCalls := [dir], filesWritten := [] }
      match env.decode p.full with
      | none => (false, log1)
      | some img =>
        let _processed := (processImage fmt s.resize s.resize_dimensions img).1
        if env.saveOk outPath then
          (true, { mkdirCalls := [dir], filesWritten := [outPath] })
        else (false, log1)

/-- Outcome of one convert_image call as seen by the worker loop of
main_nodnd.py: the call returned True, returned False, or raised an
exception caught by the per-file handler (lines 759-761). -/
inductive Outcome
  | success
  | failure
  | raised
deriving DecidableEq, Repr

/-- A message the worker thread puts on the conversion queue. A float
progress value i/total is recorded as the exact pair (i, total). -/
inductive Msg
  | progress (num den : Nat) (text : String)
  | complete (successful : Nat) (failed : List String)
  | error (text : String)
deriving DecidableEq, Repr

/-- Whether a queue message is a progress message. -/
def Msg.isProgress : Msg → Bool
  | Msg.progress _ _ _ => true
  | _ => false

/-- os.path.basename for forward-slash paths, written as a structural
fold over the character list so that proofs can evaluate it: the
accumulator restarts after every slash. -/
def basename (s : String) : String :=
  String.mk (s.data.foldl (fun acc c => if c = '/' then [] else acc ++ [c]) [])

/-- The per-file loop of ImageConverterApp.convert_images
(src/main_nodnd.py lines 719-761): for each file, one progress message
is put on the queue before its conversion, and on a False return or a
caught exception the file's basename is appended to the failed list. -/
def convertLoop (total : Nat) :
    List (String × Outcome) → Nat → Nat → List String →
    List Msg × Nat × List String
  | [], _, succ, failed => ([], succ, failed)
  | (f, o) :: rest, i, succ, failed =>
    let m := Msg.progress i total ("Converting " ++ basename f ++ "...")
    match o with
    | Outcome.success =>
      let r := convertLoop total rest (i + 1) (succ + 1) failed
      (m :: r.1, r.2)
    | _ =>
      let r := convertLoop total rest (i + 1) succ (failed ++ [basename f])
      (m :: r.1, r.2)

/-- ImageConverterApp.convert_images (lines 712-769): run the per-file
loop over the whole file list, then put the final progress message
(line 764) and the terminal complete message (line 765). -/
def convertImages (files : List (String × Outcome)) : List Msg :=
  let total := files.length
  let r := convertLoop total files 0 0 []
  r.1 ++
    [Msg.progress total total
       ("Conversion complete: " ++ toString r.2.1 ++ "/" ++ toString total ++ " successful"),
     Msg.complete r.2.1 r.2.2]

/-- Number of files of a batch whose conversion returned True. -/
def succCount (files : List (String × Outcome)) : Nat :=
  files.countP (fun e => e.2 == Outcome.success)

/-- Basenames of the files of a batch whose conversion failed, in batch
order. -/
def failedNames (files : List (String × Outcome)) : List String :=
  (files.filter (fun e => !(e.2 == Outcome.success))).map (fun e => basename e.1)

/-- The per-file progress messages of a batch, indexed from i. -/
def progressFrom (total : Nat) : Nat → List (String × Outcome) → List Msg
  | _, [] => []
  | i, (f, _) :: rest =>
    Msg.progress i total ("Converting " ++ basename f ++ "...") ::
      progressFrom total (i + 1) rest

/-- FileHandler.IMAGE_EXTENSIONS (src/utils.py, lines 22-25). -/
def IMAGE_EXTENSIONS : List String :=
  [".jpg", ".jpeg", ".png", ".gif", ".bmp", ".tiff", ".tif",
   ".webp", ".avif", ".ico", ".ppm", ".pgm", ".pbm"]

/-- FileHandler.IMAGE_MIME_TYPES (src/utils.py, lines 16-19). -/
def IMAGE_MIME_TYPES : List String :=
  ["image/jpeg", "image/jpg", "image/png", "image/gif", "image/bmp",
   "image/tiff", "image/webp", "image/avif", "image/x-icon"]

/-- FileHandler.is_image_file (src/utils.py, lines 30-56): the suffix of
the path and the best-effort MIME guess of mimetypes.guess_type are the
inputs; none models a guess of None. -/
def isImageFile (sfx : String) (mimeGuess : Option String) : Bool :=
  let ext := (lowerStr sfx)
  if !(IMAGE_EXTENSIONS.contains ext) then false
  else if pyTruthy mimeGuess && IMAGE_MIME_TYPES.contains (mimeGuess.getD "") then true
  else IMAGE_EXTENSIONS.contains ext

/-- Modelled from the spec (claim C1): the best-fit resize of section 4.2
step 7 with scale factor min(tw/sw, th/sh) and ROUNDED new dimensions,
for comparison with the implementation resizeDims. -/
def specResizeRound (ow oh tw th : Nat) : ℤ × ℤ :=
  let scale : ℚ := min ((tw : ℚ) / (ow : ℚ)) ((th : ℚ) / (oh : ℚ))
  (round ((ow : ℚ) * scale), round ((oh : ℚ) * scale))

/-- A concrete RGBA image with an EXIF orientation request, for closed
instances of the pipeline theorems. -/
def testImage : PILImage :=
  { mode := Mode.RGBA, width := 4, height := 2, transparencyInfo := false,
    exifSwap := true, px := fun _ _ => ⟨0, 0, 0, 0⟩ }

/-- Claim C1 (amended): with all four dimensions at least 1, the resize
step computes scale = min(tw/sw, th/sh) and returns the FLOOR (the
Python int truncation of line 165 and 169) of sw times scale and of
sh times scale — not the rounding the claim states; the formula also
applies when scale exceeds 1. -/
theorem resizeDims_floor_scale (ow oh tw th : Nat)
    (how : 1 ≤ ow) (hoh : 1 ≤ oh) (_htw : 1 ≤ tw) (_hth : 1 ≤ th) :
    resizeDims ow oh tw th =
      (⌊(ow : ℚ) * min ((tw : ℚ) / (ow : ℚ)) ((th : ℚ) / (oh : ℚ))⌋₊,
       ⌊(oh : ℚ) * min ((tw : ℚ) / (ow : ℚ)) ((th : ℚ) / (oh : ℚ))⌋₊) := by
  have how0 : (0 : ℚ) < (ow : ℚ) := by exact_mod_cast how
  have hoh0 : (0 : ℚ) < (oh : ℚ) := by exact_mod_cast hoh
  unfold resizeDims
  by_cases h : tw * oh < ow * th
  · rw [if_pos h]
    have hmin : min ((tw : ℚ) / (ow : ℚ)) ((th : ℚ) / (oh : ℚ)) = (tw : ℚ) / (ow : ℚ) := by
      apply min_eq_left
      rw [div_le_div_iff₀ how0 hoh0]
      have hnat : tw * oh ≤ th * ow := by
        rw [Nat.mul_comm th ow]; exact Nat.le_of_lt h
      exact_mod_cast hnat
    rw [hmin]
    have e1 : (ow : ℚ) * ((tw : ℚ) / (ow : ℚ)) = ((tw : ℕ) : ℚ) := by
      field_simp
    have e2 : (oh : ℚ) * ((tw : ℚ) / (ow : ℚ)) = ((oh * tw : ℕ) : ℚ) / ((ow : ℕ) : ℚ) := by
      push_cast
      ring
    rw [e1, e2, Nat.floor_natCast, Nat.floor_div_eq_div, Nat.mul_comm oh tw]
  · rw [if_neg h]
    have hle : ow * th ≤ tw * oh := Nat.le_of_not_lt h
    have hmin : min ((tw : ℚ) / (ow : ℚ)) ((th : ℚ) / (oh : ℚ)) = (th : ℚ) / (oh : ℚ) := by
      apply min_eq_right
      rw [div_le_div_iff₀ hoh0 how0]
      have hnat : th * ow ≤ tw * oh := by
        rw [Nat.mul_comm th ow]; exact hle
      exact_mod_cast hnat
    rw [hmin]
    have e1 : (oh : ℚ) * ((th : ℚ) / (oh : ℚ)) = ((th : ℕ) : ℚ) := by
      field_simp
    have e2 : (ow : ℚ) * ((th : ℚ) / (oh : ℚ)) = ((ow * th : ℕ) : ℚ) / ((oh : ℕ) : ℚ) := by
      push_cast
      ring
    rw [e1, e2, Nat.floor_natCast, Nat.floor_div_eq_div, Nat.mul_comm ow th]

/-- Closed instance of resizeDims_floor_scale at the spec example of a
1600x800 source in an 800x800 box, which lands on (800, 400). -/
theorem resizeDims_floor_scale_witness :
    resizeDims 1600 800 800 800 =
      (⌊((1600 : Nat) : ℚ) * min (((800 : Nat) : ℚ) / ((1600 : Nat) : ℚ))
          (((800 : Nat) : ℚ) / ((800 : Nat) : ℚ))⌋₊,
       ⌊((800 : Nat) : ℚ) * min (((800 : Nat) : ℚ) / ((1600 : Nat) : ℚ))
          (((800 : Nat) : ℚ) / ((800 : Nat) : ℚ))⌋₊) ∧
    resizeDims 1600 800 800 800 = (800, 400) :=
  ⟨resizeDims_floor_scale 1600 800 800 800 (by norm_num) (by norm_num)
      (by norm_num) (by norm_num),
   by decide⟩

/-- Claim C1 as stated is false: for a 3x2 source and a 10x10 target the
implementation truncates the height to 6 while the rounding formula of
the claim yields 7. -/
theorem resizeDims_round_counterexample :
    resizeDims 3 2 10 10 = (10, 6) ∧
    specResizeRound 3 2 10 10 = (10, 7) ∧
    (((resizeDims 3 2 10 10).1 : ℤ), ((resizeDims 3 2 10 10).2 : ℤ)) ≠
      specResizeRound 3 2 10 10 := by
  have h1 : resizeDims 3 2 10 10 = (10, 6) := by decide
  have h2 : specResizeRound 3 2 10 10 = (10, 7) := by
    unfold specResizeRound
    norm_num [round_eq]
  refine ⟨h1, h2, ?_⟩
  rw [h1, h2]
  decide

/-- Claim C2 as stated is false: with resize enabled the recorded stage
trace is transparency, resize, orientation, encode — the orientation
correction does not precede the resize. -/
theorem processImage_order_counterexample :
    (processImage "jpg" true (some (10, 10)) testImage).2 =
      [Step.transparency, Step.resize, Step.orientation, Step.encode] ∧
    [Step.transparency, Step.resize, Step.orientation, Step.encode] ≠
      [Step.transparency, Step.orientation, Step.resize, Step.encode] :=
  ⟨rfl, by decide⟩

/-- Claim C2 (amended): for every conversion reaching the processing
stage, the stages run in the order transparency handling, then the
optional resize, then orientation correction, then encoding. -/
theorem processImage_step_order (output_format : String) (r : Bool)
    (d : Option (Nat × Nat)) (img : PILImage) :
    (processImage output_format r d img).2 =
      Step.transparency ::
        ((if r && d.isSome then [Step.resize] else []) ++
          [Step.orientation, Step.encode]) := by
  unfold processImage applyStep
  by_cases h : (r && d.isSome) = true
  · simp [h]
  · simp [h]

/-- The while loop of _get_output_path, started at candidate k with
enough fuel to meet a free candidate, stops at the first candidate not
on the filesystem: all earlier candidates exist and the result is the
least free one. -/
theorem resolveLoop_finds_least (fsE : String → Bool) (dir stem ext : String) :
    ∀ fuel k, (∃ j, j < fuel ∧ fsE (candName dir stem ext (k + j)) = false) →
      ∃ j, fsE (candName dir stem ext (k + j)) = false ∧
        (∀ i, i < j → fsE (candName dir stem ext (k + i)) = true) ∧
        resolveLoop fsE dir stem ext fuel k = candName dir stem ext (k + j) := by
  intro fuel
  induction fuel with
  | zero =>
    intro k h
    obtain ⟨j, hj, _⟩ := h
    exact absurd hj (Nat.not_lt_zero j)
  | succ fuel ih =>
    intro k h
    by_cases hk : fsE (candName dir stem ext k) = true
    · have h2 : ∃ j, j < fuel ∧ fsE (candName dir stem ext (k + 1 + j)) = false := by
        obtain ⟨j, hj, hjf⟩ := h
        cases j with
        | zero =>
          rw [Nat.add_zero] at hjf
          rw [hk] at hjf
          exact absurd hjf (by simp)
        | succ j =>
          refine ⟨j, by omega, ?_⟩
          have e : k + 1 + j = k + (j + 1) := by omega
          rw [e]
          exact hjf
      obtain ⟨j, hjf, hmin, hres⟩ := ih (k + 1) h2
      refine ⟨j + 1, ?_, ?_, ?_⟩
      · have e : k + (j + 1) = k + 1 + j := by omega
        rw [e]
        exact hjf
      · intro i hi
        cases i with
        | zero => rw [Nat.add_zero]; exact hk
        | succ i =>
          have e : k + (i + 1) = k + 1 + i := by omega
          rw [e]
          exact hmin i (by omega)
      · have e : k + (j + 1) = k + 1 + j := by omega
        rw [e]
        simp only [resolveLoop, hk, if_true]
        exact hres
    · have hkf : fsE (candName dir stem ext k) = false := by
        rw [Bool.not_eq_true] at hk
        exact hk
      refine ⟨0, ?_, ?_, ?_⟩
      · rw [Nat.add_zero]; exact hkf
      · intro i hi; omega
      · rw [Nat.add_zero]
        simp only [resolveLoop, hkf]
        simp

/-- Claim C3: as long as some candidate within the search bound is free
(always true of the finitely populated real filesystem), the computed
output path never already exists, and it is dir/stem.fmt when that is
free, else dir/stem_k.fmt for the smallest k with at least 1 whose
candidate is free; all smaller candidates are occupied. -/
theorem getOutputPath_least_free (fsE : String → Bool) (parent : String)
    (folder : Option String) (stem fmt : String) (fuel : Nat)
    (h : ∃ j, j < fuel ∧
      fsE (candName (outputDir parent folder) stem ("." ++ fmt) j) = false) :
    fsE (getOutputPath fsE parent folder stem fmt fuel) = false ∧
    ((fsE (candName (outputDir parent folder) stem ("." ++ fmt) 0) = false ∧
        getOutputPath fsE parent folder stem fmt fuel =
          candName (outputDir parent folder) stem ("." ++ fmt) 0) ∨
      ∃ k, 1 ≤ k ∧
        fsE (candName (outputDir parent folder) stem ("." ++ fmt) k) = false ∧
        (∀ i, i < k →
          fsE (candName (outputDir parent folder) stem ("." ++ fmt) i) = true) ∧
        getOutputPath fsE parent folder stem fmt fuel =
          candName (outputDir parent folder) stem ("." ++ fmt) k) := by
  have h0 : ∃ j, j < fuel ∧
      fsE (candName (outputDir parent folder) stem ("." ++ fmt) (0 + j)) = false := by
    simpa using h
  obtain ⟨j, hjf, hmin, hres⟩ :=
    resolveLoop_finds_least fsE (outputDir parent folder) stem ("." ++ fmt) fuel 0 h0
  simp only [Nat.zero_add] at hjf hmin hres
  have hget : getOutputPath fsE parent folder stem fmt fuel =
      candName (outputDir parent folder) stem ("." ++ fmt) j := by
    unfold getOutputPath
    exact hres
  constructor
  · rw [hget]; exact hjf
  · cases j with
    | zero => exact Or.inl ⟨hjf, hget⟩
    | succ j =>
      refine Or.inr ⟨j + 1, by omega, hjf, ?_, hget⟩
      intro i hi
      exact hmin i hi

/-- A filesystem on which photo.png and photo_1.png are taken. -/
def fsTwoTaken : String → Bool :=
  fun s => (s == "/out/photo.png") || (s == "/out/photo_1.png")

/-- Closed instance of getOutputPath_least_free: with photo.png and
photo_1.png taken, the computed path is free and equals photo_2.png. -/
theorem getOutputPath_least_free_witness :
    fsTwoTaken (getOutputPath fsTwoTaken "/in" (some "/out") "photo" "png" 5) = false ∧
    getOutputPath fsTwoTaken "/in" (some "/out") "photo" "png" 5 = "/out/photo_2.png" :=
  ⟨(getOutputPath_least_free fsTwoTaken "/in" (some "/out") "photo" "png" 5
      ⟨2, by omega, by decide⟩).1,
   by decide⟩

/-- The capability test of _handle_transparency: does the destination
format support transparency. -/
def supportsTransparency (fmt : String) : Bool :=
  transparentFormats.contains (lowerStr fmt)

/-- Whether the source pixel mode carries an alpha channel or a palette
transparency index. -/
def carriesAlpha (img : PILImage) : Bool :=
  (img.mode == Mode.RGBA) || (img.mode == Mode.LA) ||
    ((img.mode == Mode.P) && img.transparencyInfo)

/-- A pixel composited onto an opaque white background with its own alpha
channel as the blend mask. -/
def whiteBlend (q : Pixel) : Pixel :=
  ⟨blendChannel q.r 255 q.a, blendChannel q.g 255 q.a,
   blendChannel q.b 255 q.a, 255⟩

/-- Claim C4: converting to PNG always passes the image through unchanged
(so an RGBA source keeps its alpha channel); if the destination supports
transparency or the source carries no alpha, the image passes through
unchanged; and if the destination does not support transparency while
the source carries alpha (RGBA, LA, or P with a transparency entry), the
result is an RGB buffer of the same dimensions whose every pixel is the
source pixel composited onto opaque white using its alpha as the mask. -/
theorem handleTransparency_spec (img : PILImage) (fmt : String) :
    (handleTransparency img "png" = img) ∧
    ((supportsTransparency fmt = true ∨ carriesAlpha img = false) →
      handleTransparency img fmt = img) ∧
    (supportsTransparency fmt = false → carriesAlpha img = true →
      (handleTransparency img fmt).mode = Mode.RGB ∧
      (handleTransparency img fmt).width = img.width ∧
      (handleTransparency img fmt).height = img.height ∧
      ∀ x y, (handleTransparency img fmt).px x y = whiteBlend (img.px x y)) := by
  obtain ⟨m, w, hgt, ti, es, pxf⟩ := img
  refine ⟨rfl, ?_, ?_⟩
  · intro h
    unfold handleTransparency
    by_cases ht : transparentFormats.contains (lowerStr fmt) = true
    · rw [ht]; simp
    · rw [Bool.not_eq_true] at ht
      rw [ht]
      simp only [Bool.not_false, if_true]
      cases h with
      | inl hs =>
        unfold supportsTransparency at hs
        rw [ht] at hs
        exact absurd hs (by simp)
      | inr hc =>
        unfold carriesAlpha at hc
        cases m <;> cases ti <;> simp_all
  · intro hs hc
    unfold supportsTransparency at hs
    unfold handleTransparency
    rw [hs]
    simp only [Bool.not_false, if_true]
    unfold carriesAlpha at hc
    cases m <;> cases ti <;>
      simp_all [pasteWithAlphaMask, newRGBWhite, convertToRGBA, whiteBlend]

/-- Closed instance of handleTransparency_spec: the RGBA test image sent
to JPEG comes out with mode RGB and its corner pixel white-composited. -/
theorem handleTransparency_spec_witness :
    (handleTransparency testImage "jpg").mode = Mode.RGB ∧
    (handleTransparency testImage "jpg").px 0 0 = whiteBlend (testImage.px 0 0) := by
  have h := (handleTransparency_spec testImage "jpg").2.2 (by decide) (by decide)
  exact ⟨h.1, h.2.2.2 0 0⟩

/-- Structure of the worker loop: it emits one progress message per file
in list order, counts the successes and accumulates the basenames of the
failed files in order. -/
theorem convertLoop_eq (total : Nat) (files : List (String × Outcome)) :
    ∀ i succ failed, convertLoop total files i succ failed =
      (progressFrom total i files, succ + succCount files,
        failed ++ failedNames files) := by
  induction files with
  | nil =>
    intro i succ failed
    simp [convertLoop, progressFrom, succCount, failedNames]
  | cons e rest ih =>
    intro i succ failed
    obtain ⟨f, o⟩ := e
    cases o with
    | success =>
      simp only [convertLoop, ih, progressFrom, succCount, failedNames,
        List.countP_cons, List.filter_cons]
      simp [Prod.ext_iff]
      omega
    | failure =>
      simp only [convertLoop, ih, progressFrom, succCount, failedNames,
        List.countP_cons, List.filter_cons]
      simp [Prod.ext_iff]
    | raised =>
      simp only [convertLoop, ih, progressFrom, succCount, failedNames,
        List.countP_cons, List.filter_cons]
      simp [Prod.ext_iff]

/-- Claim C5: in a batch where one file fails (by a False return or a
caught exception) and every other file succeeds, the worker still emits
the progress message of every file in list order — so processing
continues past the failure — and the terminal complete message carries
exactly one failure entry, the basename of the failed file. -/
theorem convertImages_isolated_failure (pre post : List (String × Outcome))
    (f : String) (o : Outcome)
    (ho : o ≠ Outcome.success)
    (hpre : ∀ e ∈ pre, e.2 = Outcome.success)
    (hpost : ∀ e ∈ post, e.2 = Outcome.success) :
    convertImages (pre ++ (f, o) :: post) =
      progressFrom (pre ++ (f, o) :: post).length 0 (pre ++ (f, o) :: post) ++
        [Msg.progress (pre ++ (f, o) :: post).length (pre ++ (f, o) :: post).length
           ("Conversion complete: " ++ toString (pre.length + post.length) ++ "/" ++
             toString (pre ++ (f, o) :: post).length ++ " successful"),
         Msg.complete (pre.length + post.length) [basename f]] := by
  have hno : ((f, o).2 == Outcome.success) = false := by
    simp only [beq_eq_false_iff_ne, ne_eq]
    exact ho
  have hsucc : succCount (pre ++ (f, o) :: post) = pre.length + post.length := by
    unfold succCount
    rw [List.countP_append, List.countP_cons]
    have h1 : pre.countP (fun e => e.2 == Outcome.success) = pre.length := by
      rw [List.countP_eq_length]
      intro a ha
      simp [hpre a ha]
    have h2 : post.countP (fun e => e.2 == Outcome.success) = post.length := by
      rw [List.countP_eq_length]
      intro a ha
      simp [hpost a ha]
    rw [h1, h2, hno]
    simp
  have hfail : failedNames (pre ++ (f, o) :: post) = [basename f] := by
    unfold failedNames
    rw [List.filter_append, List.filter_cons]
    have h1 : pre.filter (fun e => !(e.2 == Outcome.success)) = [] := by
      rw [List.filter_eq_nil_iff]
      intro a ha
      simp [hpre a ha]
    have h2 : post.filter (fun e => !(e.2 == Outcome.success)) = [] := by
      rw [List.filter_eq_nil_iff]
      intro a ha
      simp [hpost a ha]
    rw [h1, h2, hno]
    simp
  simp only [convertImages, convertLoop_eq]
  simp [hsucc, hfail]

/-- Closed instance of convertImages_isolated_failure on a three-file
batch whose middle file fails: all three progress messages appear in
order and the report names only y.png. -/
theorem convertImages_isolated_failure_witness :
    convertImages [("x.png", Outcome.success), ("y.png", Outcome.failure),
        ("z.png", Outcome.success)] =
      [Msg.progress 0 3 "Converting x.png...",
       Msg.progress 1 3 "Converting y.png...",
       Msg.progress 2 3 "Converting z.png...",
       Msg.progress 3 3 "Conversion complete: 2/3 successful",
       Msg.complete 2 ["y.png"]] := by
  have h := convertImages_isolated_failure [("x.png", Outcome.success)]
    [("z.png", Outcome.success)] "y.png" Outcome.failure
    (by decide) (by decide) (by decide)
  exact h.trans (by decide)

/-- Claim C8 as stated is false: a batch of one file produces three queue
messages, two of them progress messages — the final summary progress put
at line 764 of main_nodnd.py is neither the per-file progress message
nor the terminal message, so the sequence does not consist of one
progress message per file followed by one terminal message. -/
theorem convertImages_extra_final_progress :
    ((convertImages [("a.png", Outcome.failure)]).filter Msg.isProgress).length = 2 ∧
    (convertImages [("a.png", Outcome.failure)]).length = 3 ∧
    (convertImages [("a.png", Outcome.failure)]).length ≠ 1 + 1 := by
  refine ⟨by decide, by decide, by decide⟩

/-- Claim C8 (amended): the worker's queue sequence is exactly one
progress message before each file in file-list order, then one final
summary progress message, then exactly one terminal complete message;
the error message is reserved for a failure of the loop itself. -/
theorem convertImages_message_sequence (files : List (String × Outcome)) :
    convertImages files =
      progressFrom files.length 0 files ++
        [Msg.progress files.length files.length
           ("Conversion complete: " ++ toString (succCount files) ++ "/" ++
             toString files.length ++ " successful"),
         Msg.complete (succCount files) (failedNames files)] := by
  simp only [convertImages, convertLoop_eq]
  simp

/-- The output path convert_image computes for a call (line 77). -/
def plannedOutputPath (env : Env) (fuel : Nat) (p : InputPath) (s : Settings) : String :=
  getOutputPath env.fsExists p.parent s.output_folder p.stem
    (lowerStr (s.output_format.getD "png")) fuel

/-- Claim C6 (amended): convert_image returns a bare bool, and it returns
False exactly when one of the failure conditions holds: input missing,
unsupported input extension, unsupported output format, decode failure,
or save failure. The two fidelity hypotheses confine the statement to
the domain where the embedding matches Python (decoded images and resize
targets with positive dimensions; outside it Python raises through the
same catch-all and still returns False). -/
theorem convertImage_false_iff (env : Env) (fuel : Nat) (p : InputPath)
    (s : Settings)
    (_himg : ∀ i, env.decode p.full = some i → 0 < i.width ∧ 0 < i.height)
    (_hdims : ∀ d, s.resize_dimensions = some d → 0 < d.1 ∧ 0 < d.2) :
    (convertImage env fuel p s).1 = false ↔
      env.fsExists p.full = false ∨
      SUPPORTED_INPUT_FORMATS.contains (lowerStr p.suffix) = false ∨
      supportedOutput (lowerStr (s.output_format.getD "png")) = false ∨
      env.decode p.full = none ∨
      env.saveOk (plannedOutputPath env fuel p s) = false := by
  unfold plannedOutputPath
  by_cases h1 : env.fsExists p.full = true
  · by_cases h2 : SUPPORTED_INPUT_FORMATS.contains (lowerStr p.suffix) = true
    · have hm2 : lowerStr p.suffix ∈ SUPPORTED_INPUT_FORMATS := by simpa using h2
      by_cases h3 : supportedOutput (lowerStr (s.output_format.getD "png")) = true
      · cases hdec : env.decode p.full with
        | none => simp [convertImage, h1, h2, hm2, h3, hdec]
        | some img =>
          by_cases h5 : env.saveOk (getOutputPath env.fsExists p.parent
              s.output_folder p.stem (lowerStr (s.output_format.getD "png")) fuel) = true
          · simp [convertImage, h1, h2, hm2, h3, hdec, h5]
          · rw [Bool.not_eq_true] at h5
            simp [convertImage, h1, h2, hm2, h3, hdec, h5]
      · rw [Bool.not_eq_true] at h3
        simp [convertImage, h1, h2, hm2, h3]
    · rw [Bool.not_eq_true] at h2
      have hm2 : lowerStr p.suffix ∉ SUPPORTED_INPUT_FORMATS := by simpa using h2
      simp [convertImage, h1, h2, hm2]
  · rw [Bool.not_eq_true] at h1
    simp [convertImage, h1]

/-- An environment in which the input file exists, decodes to the test
image, and every save succeeds. -/
def envOkW : Env :=
  { fsExists := fun s => s == "/in/a.png", decode := fun _ => some testImage,
    saveOk := fun _ => true }

/-- An environment in which no path exists and nothing decodes. -/
def envMissing : Env :=
  { fsExists := fun _ => false, decode := fun _ => none, saveOk := fun _ => false }

/-- The input path /in/a.png as pathlib splits it. -/
def pInW : InputPath :=
  { full := "/in/a.png", parent := "/in", stem := "a", suffix := ".png" }

/-- Settings requesting the png output format and nothing else. -/
def settingsPng : Settings :=
  { output_format := some "png", output_folder := none, resize := false,
    resize_dimensions := none, quality := none }

/-- Settings requesting the unsupported output format xyz. -/
def settingsXyz : Settings :=
  { output_format := some "xyz", output_folder := none, resize := false,
    resize_dimensions := none, quality := none }

/-- Closed instance of convertImage_false_iff on a call whose input
exists, decodes, and saves. -/
theorem convertImage_false_iff_witness :
    (convertImage envOkW 3 pInW settingsPng).1 = false ↔
      envOkW.fsExists pInW.full = false ∨
      SUPPORTED_INPUT_FORMATS.contains (lowerStr pInW.suffix) = false ∨
      supportedOutput (lowerStr (settingsPng.output_format.getD "png")) = false ∨
      envOkW.decode pInW.full = none ∨
      envOkW.saveOk (plannedOutputPath envOkW 3 pInW settingsPng) = false := by
  apply convertImage_false_iff
  · intro i h
    simp only [envOkW, Option.some.injEq] at h
    subst h
    exact ⟨by decide, by decide⟩
  · intro d h
    simp [settingsPng] at h

/-- Claim C6 as stated is false: convert_image returns a bare bool, so
two calls that fail for different kinds — input not found versus
unsupported output format — return the one identical value False, and no
failure_reason is populated anywhere in the returned value. -/
theorem convertImage_no_failure_reason :
    convertImage envMissing 3 pInW settingsPng = (false, FSLog.empty) ∧
    convertImage envOkW 3 pInW settingsXyz = (false, FSLog.empty) ∧
    envMissing.fsExists pInW.full = false ∧
    envOkW.fsExists pInW.full = true ∧
    supportedOutput (lowerStr (settingsXyz.output_format.getD "png")) = false ∧
    convertImage envMissing 3 pInW settingsPng =
      convertImage envOkW 3 pInW settingsXyz :=
  ⟨by decide, by decide, by decide, by decide, by decide, by decide⟩

/-- Claim C7: for an existing input with a supported extension and an
output format missing from the capability table, convert_image returns
False with an empty effect log: the validation of line 72 runs before
the mkdir of line 113 and the save of line 201, so no directory is
created and no file is written. -/
theorem convertImage_unsupported_output_pure (env : Env) (fuel : Nat)
    (p : InputPath) (s : Settings)
    (h1 : env.fsExists p.full = true)
    (_h2 : SUPPORTED_INPUT_FORMATS.contains (lowerStr p.suffix) = true)
    (h3 : supportedOutput (lowerStr (s.output_format.getD "png")) = false) :
    convertImage env fuel p s = (false, FSLog.empty) := by
  unfold convertImage
  simp [h1, h3]

/-- Closed instance of convertImage_unsupported_output_pure at the
format xyz of the spec's example. -/
theorem convertImage_unsupported_output_pure_witness :
    convertImage envOkW 3 pInW settingsXyz = (false, FSLog.empty) :=
  convertImage_unsupported_output_pure envOkW 3 pInW settingsXyz
    (by decide) (by decide) (by decide)

/-- Claim C9: is_image_file equals the pure extension membership test on
the lower-cased suffix, whatever the best-effort MIME guess returns —
the MIME branch can only confirm, never flip, the verdict. -/
theorem isImageFile_eq_extension_membership (sfx : String) (mime : Option String) :
    isImageFile sfx mime = IMAGE_EXTENSIONS.contains (lowerStr sfx) := by
  unfold isImageFile
  cases h : IMAGE_EXTENSIONS.contains (lowerStr sfx)
  · have hm : lowerStr sfx ∉ IMAGE_EXTENSIONS := by simpa using h
    simp [h, hm]
  · have hm : lowerStr sfx ∈ IMAGE_EXTENSIONS := by simpa using h
    simp [h, hm]

/-- Claim C10: an output_folder holding the empty string is falsy exactly
like an absent one, so the output directory is the parent of the input
path and the whole conversion behaves identically to the absent case. -/
theorem emptyOutputFolder_same_as_none (env : Env) (fuel : Nat) (p : InputPath)
    (ofmt : Option String) (r : Bool) (d : Option (Nat × Nat)) (q : Option Nat) :
    outputDir p.parent (some "") = p.parent ∧
    convertImage env fuel p
        { output_format := ofmt, output_folder := some "", resize := r,
          resize_dimensions := d, quality := q } =
      convertImage env fuel p
        { output_format := ofmt, output_folder := none, resize := r,
          resize_dimensions := d, quality := q } := by
  exact ⟨rfl, rfl⟩

end ImageConv
